import Mathlib

/-!
Shallow embedding of the MaiZone browser extension state-management core
(src/state_core.js and the background state service) together with proofs
about its normalization, invariant-enforcement, diff, pipeline and trust
boundary behaviour.

Machine JS values are modelled by an inductive of JSON-like runtime values:
finite numbers are exact rationals (every finite IEEE double is a rational
and the code only ever compares numbers, it never does arithmetic on them),
NaN and the infinities are collapsed into one non-finite constructor
(they behave identically under the only test applied to them,
Number.isFinite), and objects are opaque (no code path below ever reads a
property of a nested object).  Strings are Lean strings; the Unicode
lowercase map of JavaScript is modelled by the ASCII lowercase map, which
agrees with it on every input that can survive the hostname character
filter below.
-/

namespace Maizone

/-- JSON-like runtime value as read from chrome.storage or a message payload. -/
inductive JSValue where
  | vNull
  | vUndefined
  | vBool (b : Bool)
  | vNum (q : Rat)
  | vNaN
  | vStr (s : String)
  | vArr (elems : List JSValue)
  | vObj

/-- Whitespace class of the JavaScript regular expression \s and of
String.prototype.trim: ASCII whitespace, NBSP, BOM, and the Unicode
space separators and line separators. -/
def jsWhitespaceChars : List Char :=
  [' ', '\t', '\n', '\r', '\x0b', '\x0c', '\u00A0', '\uFEFF',
   '\u1680', '\u2000', '\u2001', '\u2002', '\u2003', '\u2004', '\u2005',
   '\u2006', '\u2007', '\u2008', '\u2009', '\u200A', '\u2028', '\u2029',
   '\u202F', '\u205F', '\u3000']

/-- Is the character JavaScript whitespace. -/
def jsWhitespace (c : Char) : Bool := jsWhitespaceChars.contains c

/-- String.prototype.trim. -/
def jsTrim (s : String) : String :=
  String.mk (((s.data.dropWhile jsWhitespace).reverse.dropWhile jsWhitespace).reverse)

/-- String.prototype.toLowerCase, restricted to the ASCII case map (see the
module comment). -/
def jsToLower (s : String) : String := String.mk (s.data.map Char.toLower)

/-- Everything before the first occurrence of c: models s.split(c)[0]. -/
def takeUntil (c : Char) (s : String) : String :=
  String.mk (s.data.takeWhile (fun d => d ≠ c))

/-- Boolean list-prefix test used to model String.prototype.startsWith. -/
def charsStart : List Char → List Char → Bool
  | [], _ => true
  | _ :: _, [] => false
  | p :: ps, c :: cs => p == c && charsStart ps cs

/-- String.prototype.startsWith. -/
def strStarts (p s : String) : Bool := charsStart p.data s.data

/-- String.prototype.endsWith. -/
def strEnds (p s : String) : Bool := charsStart p.data.reverse s.data.reverse

/-- Drop the first n characters: models String.prototype.slice(n). -/
def strDrop (n : Nat) (s : String) : String := String.mk (s.data.drop n)

/-- Take the first n characters: models String.prototype.slice(0, n). -/
def strTake (n : Nat) (s : String) : String := String.mk (s.data.take n)

/-- The one replacement performed by .replace applied to the
anchored pattern matching an http or https scheme. -/
def stripProtocol (s : String) : String :=
  if strStarts "https://" s then strDrop 8 s
  else if strStarts "http://" s then strDrop 7 s
  else s

/-- The one replacement performed by .replace applied to the anchored
pattern matching a leading www dot. -/
def stripWwwDot (s : String) : String :=
  if strStarts "www." s then strDrop 4 s else s

/-- Does the character list contain two consecutive dots: models
hostname.includes of a double dot. -/
def hasDoubleDot : List Char → Bool
  | [] => false
  | [_] => false
  | a :: b :: rest => (a == '.' && b == '.') || hasDoubleDot (b :: rest)

/-- The character class of the hostname validation regular expression:
lowercase ASCII letters (code points 97 to 122), digits (48 to 57), dot
and hyphen. -/
def hostChar (c : Char) : Bool :=
  (97 ≤ c.toNat && c.toNat ≤ 122) || (48 ≤ c.toNat && c.toNat ≤ 57) || c == '.' || c == '-'

/-- One iteration body of the loop of normalizeDomainList in
src/state_core.js: trim, lowercase, strip scheme, cut at the first slash,
question mark and hash, strip a leading www., then validate.  Returns the
candidate hostname, or none when the item is skipped (continue). -/
def normItem (rawValue : JSValue) : Option String :=
  match rawValue with
  | .vStr s =>
    let raw := jsToLower (jsTrim s)
    if raw = "" then none
    else
      let withoutProtocol := stripProtocol raw
      let hostname :=
        stripWwwDot (takeUntil '#' (takeUntil '?' (takeUntil '/' withoutProtocol)))
      if hostname = "" then none
      else if 253 < hostname.data.length then none
      else if !hostname.data.contains '.' then none
      else if strStarts "." hostname then none
      else if strEnds "." hostname then none
      else if hasDoubleDot hostname.data then none
      else if hostname.data.any jsWhitespace then none
      else if !hostname.data.all hostChar then none
      else some hostname
  | _ => none

/-- The accumulation loop of normalizeDomainList: skip invalid items,
skip hostnames already seen (the seen set always holds exactly the pushed
hostnames, so membership in out is the same test), push, and break once
out reaches maxItems. -/
def collectHostnames (maxItems : Nat) : List JSValue → List String → List String
  | [], out => out
  | rawValue :: rest, out =>
    match normItem rawValue with
    | none => collectHostnames maxItems rest out
    | some hostname =>
      if out.contains hostname then collectHostnames maxItems rest out
      else if maxItems ≤ out.length + 1 then out ++ [hostname]
      else collectHostnames maxItems rest (out ++ [hostname])

/-- Lexicographic comparison of character lists by code point, which on
the ASCII hostnames this code sorts coincides with the UTF-16 code-unit
comparison performed by the default comparator of Array.prototype.sort. -/
def charsLe : List Char → List Char → Bool
  | [], _ => true
  | _ :: _, [] => false
  | a :: as, b :: bs =>
    if a.toNat < b.toNat then true
    else if a.toNat = b.toNat then charsLe as bs
    else false

/-- The string order used by the default comparator of Array.prototype.sort. -/
def strLe (a b : String) : Bool := charsLe a.data b.data

/-- The same order as a relation, for the sortedness statements. -/
def StrOrder (a b : String) : Prop := strLe a b = true

instance : DecidableRel StrOrder := fun a b => by unfold StrOrder; infer_instance

/-- Array.prototype.sort with the default comparator, on the string arrays
this code sorts.  The ECMA specification promises a stable sort by UTF-16
code units; insertion sort is such a sort. -/
def sortStrings (l : List String) : List String :=
  List.insertionSort StrOrder l

/-- Cap applied to both site lists. -/
def MAX_SITE_LIST_ITEMS : Nat := 200

/-- normalizeDomainList from src/state_core.js. -/
def normalizeDomainList (value : JSValue) (fallback : List String) (maxItems : Nat) :
    List String :=
  match value with
  | .vArr elems => sortStrings (collectHostnames maxItems elems [])
  | _ => fallback

/-- normalizeBoolean from src/state_core.js. -/
def normalizeBoolean (value : JSValue) (fallback : Bool) : Bool :=
  match value with
  | .vBool b => b
  | _ => fallback

/-- normalizeNumberOrNull from src/state_core.js: null stays null, a finite
number is kept, anything else (including NaN and the infinities) falls back. -/
def normalizeNumberOrNull (value : JSValue) (fallback : Option Rat) : Option Rat :=
  match value with
  | .vNull => none
  | .vNum q => some q
  | _ => fallback

/-- Lower bound on a break-reminder interval (one minute, in ms). -/
def MIN_INTERVAL_MS : Rat := 60 * 1000

/-- Upper bound on a break-reminder interval (24 hours, in ms). -/
def MAX_INTERVAL_MS : Rat := 24 * 60 * 60 * 1000

/-- normalizeIntervalMs from src/state_core.js. -/
def normalizeIntervalMs (value : JSValue) (fallback : Option Rat) : Option Rat :=
  match value with
  | .vNull => none
  | .vNum q => if q < MIN_INTERVAL_MS ∨ MAX_INTERVAL_MS < q then fallback else some q
  | _ => fallback

/-- Cap applied to the task label length. -/
def MAX_TASK_LENGTH : Nat := 120

/-- normalizeTask from src/state_core.js: trim, empty is canonical unset,
otherwise truncate to MAX_TASK_LENGTH. -/
def normalizeTask (value : JSValue) (fallback : String) : String :=
  match value with
  | .vStr s =>
    let trimmed := jsTrim s
    if trimmed = "" then ""
    else if MAX_TASK_LENGTH < trimmed.data.length then strTake MAX_TASK_LENGTH trimmed
    else trimmed
  | _ => fallback

/-- DEFAULT_DISTRACTING_SITES from src/constants.js, in source order. -/
def DEFAULT_DISTRACTING_SITES : List String :=
  ["youtube.com", "facebook.com", "twitter.com", "instagram.com", "reddit.com",
   "tiktok.com", "netflix.com", "spotify.com", "soundcloud.com", "vnexpress.net"]

/-- DEFAULT_DEEPWORK_BLOCKED_SITES from src/constants.js, in source order. -/
def DEFAULT_DEEPWORK_BLOCKED_SITES : List String :=
  ["discord.com", "messenger.com", "whatsapp.com"]

/-- The full state record: the closed set of schema fields with their
static types.  Timer fields are a finite number or null. -/
structure State where
  isEnabled : Bool
  currentTask : String
  isInFlow : Bool
  blockDistractions : Bool
  breakReminderEnabled : Bool
  distractingSites : List String
  deepWorkBlockedSites : List String
  reminderStartTime : Option Rat
  reminderInterval : Option Rat
  reminderExpectedEndTime : Option Rat
deriving DecidableEq

/-- getDefaultState from src/state_core.js (the array cloning has no
observable counterpart for immutable Lean lists). -/
def getDefaultState : State :=
  { isEnabled := true
    currentTask := ""
    isInFlow := false
    blockDistractions := true
    breakReminderEnabled := false
    distractingSites := DEFAULT_DISTRACTING_SITES
    deepWorkBlockedSites := DEFAULT_DEEPWORK_BLOCKED_SITES
    reminderStartTime := none
    reminderInterval := none
    reminderExpectedEndTime := none }

/-- enforceStateInvariants from src/state_core.js, as the same four
sequential conditional passes over a copy of the record.  Falsiness of
currentTask is emptiness (the field is a string on every call site),
falsiness of isEnabled and isInFlow is boolean negation. -/
def enforceStateInvariants (nextState : State) : State :=
  let s0 := nextState
  let s1 := if s0.currentTask = "" then { s0 with currentTask := "" } else s0
  let s2 :=
    if s1.isEnabled = false then
      { s1 with isInFlow := false, currentTask := "", breakReminderEnabled := false,
                reminderStartTime := none, reminderInterval := none,
                reminderExpectedEndTime := none }
    else s1
  let s3 :=
    if s2.isInFlow = true ∧ s2.currentTask = "" then { s2 with isInFlow := false } else s2
  let s4 :=
    if s3.isInFlow = false ∨ s3.currentTask = "" then
      { s3 with isInFlow := false, breakReminderEnabled := false,
                reminderStartTime := none, reminderInterval := none,
                reminderExpectedEndTime := none }
    else s3
  s4

/-- A raw partial record over the schema keys: the shape of what is read
from chrome.storage.local, of an update payload restricted to schema keys,
and of the storage contents themselves.  none means the key is absent;
a present key holds an arbitrary JSValue (which may be vUndefined). -/
structure RawState where
  isEnabled : Option JSValue := none
  currentTask : Option JSValue := none
  isInFlow : Option JSValue := none
  blockDistractions : Option JSValue := none
  breakReminderEnabled : Option JSValue := none
  distractingSites : Option JSValue := none
  deepWorkBlockedSites : Option JSValue := none
  reminderStartTime : Option JSValue := none
  reminderInterval : Option JSValue := none
  reminderExpectedEndTime : Option JSValue := none

/-- The empty raw record. -/
def emptyRawState : RawState := {}

/-- JavaScript property access: an absent key reads as undefined. -/
def jsGet (o : Option JSValue) : JSValue := o.getD JSValue.vUndefined

/-- sanitizeStoredState from src/state_core.js.  A falsy stored value is
replaced by the empty record; each field is normalized with the default as
fallback; the merge onto base is the identity because merged is total;
invariants are enforced last. -/
def sanitizeStoredState (storedState : Option RawState) : State :=
  let base := getDefaultState
  let stored := storedState.getD emptyRawState
  let merged : State :=
    { isEnabled := normalizeBoolean (jsGet stored.isEnabled) base.isEnabled
      currentTask := normalizeTask (jsGet stored.currentTask) base.currentTask
      isInFlow := normalizeBoolean (jsGet stored.isInFlow) base.isInFlow
      blockDistractions := normalizeBoolean (jsGet stored.blockDistractions) base.blockDistractions
      breakReminderEnabled :=
        normalizeBoolean (jsGet stored.breakReminderEnabled) base.breakReminderEnabled
      distractingSites :=
        normalizeDomainList (jsGet stored.distractingSites) base.distractingSites
          MAX_SITE_LIST_ITEMS
      deepWorkBlockedSites :=
        normalizeDomainList (jsGet stored.deepWorkBlockedSites) base.deepWorkBlockedSites
          MAX_SITE_LIST_ITEMS
      reminderStartTime :=
        normalizeNumberOrNull (jsGet stored.reminderStartTime) base.reminderStartTime
      reminderInterval :=
        normalizeIntervalMs (jsGet stored.reminderInterval) base.reminderInterval
      reminderExpectedEndTime :=
        normalizeNumberOrNull (jsGet stored.reminderExpectedEndTime) base.reminderExpectedEndTime }
  enforceStateInvariants merged

/-- computeNextState from src/state_core.js, for an update payload that is
an object (the guard branches for a non-object currentState or updates are
unreachable in the typed embedding).  A key present in updates is
normalized with the current value as fallback; an absent key passes the
current value through; invariants are enforced on the merged record. -/
def computeNextState (currentState : State) (updates : RawState) : State :=
  let current := currentState
  let merged : State :=
    { isEnabled :=
        match updates.isEnabled with
        | some v => normalizeBoolean v current.isEnabled
        | none => current.isEnabled
      currentTask :=
        match updates.currentTask with
        | some v => normalizeTask v current.currentTask
        | none => current.currentTask
      isInFlow :=
        match updates.isInFlow with
        | some v => normalizeBoolean v current.isInFlow
        | none => current.isInFlow
      blockDistractions :=
        match updates.blockDistractions with
        | some v => normalizeBoolean v current.blockDistractions
        | none => current.blockDistractions
      breakReminderEnabled :=
        match updates.breakReminderEnabled with
        | some v => normalizeBoolean v current.breakReminderEnabled
        | none => current.breakReminderEnabled
      distractingSites :=
        match updates.distractingSites with
        | some v => normalizeDomainList v current.distractingSites MAX_SITE_LIST_ITEMS
        | none => current.distractingSites
      deepWorkBlockedSites :=
        match updates.deepWorkBlockedSites with
        | some v => normalizeDomainList v current.deepWorkBlockedSites MAX_SITE_LIST_ITEMS
        | none => current.deepWorkBlockedSites
      reminderStartTime :=
        match updates.reminderStartTime with
        | some v => normalizeNumberOrNull v current.reminderStartTime
        | none => current.reminderStartTime
      reminderInterval :=
        match updates.reminderInterval with
        | some v => normalizeIntervalMs v current.reminderInterval
        | none => current.reminderInterval
      reminderExpectedEndTime :=
        match updates.reminderExpectedEndTime with
        | some v => normalizeNumberOrNull v current.reminderExpectedEndTime
        | none => current.reminderExpectedEndTime }
  enforceStateInvariants merged

/-- areStringArraysEqual from src/state_core.js: on two genuine string
arrays the length check plus the element loop is exactly list equality. -/
def areStringArraysEqual (a b : List String) : Bool := a == b

/-- A state delta: for each schema key, the new value when the key changed,
none when it did not. -/
structure Delta where
  isEnabled : Option Bool := none
  currentTask : Option String := none
  isInFlow : Option Bool := none
  blockDistractions : Option Bool := none
  breakReminderEnabled : Option Bool := none
  distractingSites : Option (List String) := none
  deepWorkBlockedSites : Option (List String) := none
  reminderStartTime : Option (Option Rat) := none
  reminderInterval : Option (Option Rat) := none
  reminderExpectedEndTime : Option (Option Rat) := none
deriving DecidableEq

/-- The key name contributed by one delta field. -/
def optKey {α : Type} (name : String) (o : Option α) : List String :=
  match o with
  | some _ => [name]
  | none => []

/-- Object.keys of a delta, in schema (insertion) order. -/
def Delta.keys (d : Delta) : List String :=
  optKey "isEnabled" d.isEnabled ++ optKey "currentTask" d.currentTask ++
  optKey "isInFlow" d.isInFlow ++ optKey "blockDistractions" d.blockDistractions ++
  optKey "breakReminderEnabled" d.breakReminderEnabled ++
  optKey "distractingSites" d.distractingSites ++
  optKey "deepWorkBlockedSites" d.deepWorkBlockedSites ++
  optKey "reminderStartTime" d.reminderStartTime ++
  optKey "reminderInterval" d.reminderInterval ++
  optKey "reminderExpectedEndTime" d.reminderExpectedEndTime

/-- diffState from src/state_core.js between two full typed states:
value comparison per key, arrays element-wise. -/
def diffState (prevState nextState : State) : Delta :=
  { isEnabled :=
      if prevState.isEnabled ≠ nextState.isEnabled then some nextState.isEnabled else none
    currentTask :=
      if prevState.currentTask ≠ nextState.currentTask then some nextState.currentTask else none
    isInFlow :=
      if prevState.isInFlow ≠ nextState.isInFlow then some nextState.isInFlow else none
    blockDistractions :=
      if prevState.blockDistractions ≠ nextState.blockDistractions then
        some nextState.blockDistractions
      else none
    breakReminderEnabled :=
      if prevState.breakReminderEnabled ≠ nextState.breakReminderEnabled then
        some nextState.breakReminderEnabled
      else none
    distractingSites :=
      if areStringArraysEqual prevState.distractingSites nextState.distractingSites then none
      else some nextState.distractingSites
    deepWorkBlockedSites :=
      if areStringArraysEqual prevState.deepWorkBlockedSites nextState.deepWorkBlockedSites then
        none
      else some nextState.deepWorkBlockedSites
    reminderStartTime :=
      if prevState.reminderStartTime ≠ nextState.reminderStartTime then
        some nextState.reminderStartTime
      else none
    reminderInterval :=
      if prevState.reminderInterval ≠ nextState.reminderInterval then
        some nextState.reminderInterval
      else none
    reminderExpectedEndTime :=
      if prevState.reminderExpectedEndTime ≠ nextState.reminderExpectedEndTime then
        some nextState.reminderExpectedEndTime
      else none }

/-! The background state service (the refactored background_state module):
an in-memory snapshot, the persistent store contents, and the broadcast
history, plus the serialized update pipeline, the storage reconciliation
listener, the hydration coordinator and the message-level trust boundary. -/

/-- A null-or-number state field as it is written to storage. -/
def numOrNullToRaw : Option Rat → JSValue
  | none => JSValue.vNull
  | some q => JSValue.vNum q

/-- A string list as it is written to storage. -/
def strListToRaw (l : List String) : JSValue := JSValue.vArr (l.map JSValue.vStr)

/-- The raw storage image of a full typed state: what the store holds after
this state has been fully persisted. -/
def stateToRaw (s : State) : RawState :=
  { isEnabled := some (JSValue.vBool s.isEnabled)
    currentTask := some (JSValue.vStr s.currentTask)
    isInFlow := some (JSValue.vBool s.isInFlow)
    blockDistractions := some (JSValue.vBool s.blockDistractions)
    breakReminderEnabled := some (JSValue.vBool s.breakReminderEnabled)
    distractingSites := some (strListToRaw s.distractingSites)
    deepWorkBlockedSites := some (strListToRaw s.deepWorkBlockedSites)
    reminderStartTime := some (numOrNullToRaw s.reminderStartTime)
    reminderInterval := some (numOrNullToRaw s.reminderInterval)
    reminderExpectedEndTime := some (numOrNullToRaw s.reminderExpectedEndTime) }

/-- chrome.storage.local.set of a delta: the keys present in the delta are
written (with the typed values serialized back to raw JSON values), all
other keys of the store are untouched. -/
def applyDeltaToStore (store : RawState) (delta : Delta) : RawState :=
  { isEnabled :=
      match delta.isEnabled with
      | some b => some (JSValue.vBool b)
      | none => store.isEnabled
    currentTask :=
      match delta.currentTask with
      | some s => some (JSValue.vStr s)
      | none => store.currentTask
    isInFlow :=
      match delta.isInFlow with
      | some b => some (JSValue.vBool b)
      | none => store.isInFlow
    blockDistractions :=
      match delta.blockDistractions with
      | some b => some (JSValue.vBool b)
      | none => store.blockDistractions
    breakReminderEnabled :=
      match delta.breakReminderEnabled with
      | some b => some (JSValue.vBool b)
      | none => store.breakReminderEnabled
    distractingSites :=
      match delta.distractingSites with
      | some l => some (strListToRaw l)
      | none => store.distractingSites
    deepWorkBlockedSites :=
      match delta.deepWorkBlockedSites with
      | some l => some (strListToRaw l)
      | none => store.deepWorkBlockedSites
    reminderStartTime :=
      match delta.reminderStartTime with
      | some q => some (numOrNullToRaw q)
      | none => store.reminderStartTime
    reminderInterval :=
      match delta.reminderInterval with
      | some q => some (numOrNullToRaw q)
      | none => store.reminderInterval
    reminderExpectedEndTime :=
      match delta.reminderExpectedEndTime with
      | some q => some (numOrNullToRaw q)
      | none => store.reminderExpectedEndTime }

/-- Object.keys(DEFAULT_STATE): the schema keys, in declaration order. -/
def stateKeys : List String :=
  ["isEnabled", "currentTask", "isInFlow", "blockDistractions", "breakReminderEnabled",
   "distractingSites", "deepWorkBlockedSites", "reminderStartTime", "reminderInterval",
   "reminderExpectedEndTime"]

/-- Assignment of one raw value to one schema key of a raw record;
a key outside the schema leaves the record unchanged. -/
def setRawField (r : RawState) (key : String) (v : JSValue) : RawState :=
  if key = "isEnabled" then { r with isEnabled := some v }
  else if key = "currentTask" then { r with currentTask := some v }
  else if key = "isInFlow" then { r with isInFlow := some v }
  else if key = "blockDistractions" then { r with blockDistractions := some v }
  else if key = "breakReminderEnabled" then { r with breakReminderEnabled := some v }
  else if key = "distractingSites" then { r with distractingSites := some v }
  else if key = "deepWorkBlockedSites" then { r with deepWorkBlockedSites := some v }
  else if key = "reminderStartTime" then { r with reminderStartTime := some v }
  else if key = "reminderInterval" then { r with reminderInterval := some v }
  else if key = "reminderExpectedEndTime" then { r with reminderExpectedEndTime := some v }
  else r

/-- chrome.storage.local.set of an arbitrary key-to-raw-value object, as
performed by an out-of-band writer that bypasses the pipeline (only schema
keys are representable in the store model; the reconciliation listener
ignores the others anyway). -/
def applyRawWrite (store : RawState) (changes : List (String × JSValue)) : RawState :=
  changes.foldl (fun st kv => setRawField st kv.1 kv.2) store

/-- The filter inside the storage reconciliation listener: keep the change
entries whose key is in DEFAULT_STATE. -/
def filterSchemaEntries (changes : List (String × JSValue)) : List (String × JSValue) :=
  changes.filter (fun kv => stateKeys.contains kv.1)

/-- The rawUpdates object the reconciliation listener builds from the
schema-recognized change entries (rawUpdates[key] = change.newValue). -/
def buildRawUpdates (entries : List (String × JSValue)) : RawState :=
  entries.foldl (fun st kv => setRawField st kv.1 kv.2) emptyRawState

/-- The observable state of the background service: the in-memory
snapshot, the persistent store contents, and the history of broadcast
deltas (in emission order). -/
structure SysState where
  mem : State
  store : RawState
  broadcasts : List Delta

/-- One queued continuation of updateState in the background state module
(the body chained onto updateChain), with setFails injecting a synchronous
throw of the persistence call.  Hydration is assumed complete (the body
awaits ensureInitialized first).  An empty delta resolves true with no
I/O; otherwise the in-memory snapshot is advanced first, then the delta is
persisted and broadcast.  A persistence failure is caught and resolves the
call false, after the snapshot was already advanced. -/
def runUpdate (setFails : Bool) (sys : SysState) (updates : RawState) : SysState × Bool :=
  let nextState := computeNextState sys.mem updates
  let delta := diffState sys.mem nextState
  if delta.keys = [] then (sys, true)
  else
    let advanced : SysState := { sys with mem := nextState }
    if setFails then (advanced, false)
    else
      ({ advanced with
          store := applyDeltaToStore advanced.store delta
          broadcasts := sys.broadcasts ++ [delta] }, true)

/-- The serialized update queue: every submitted call is appended to one
promise chain, so the calls run one after another in submission order,
each seeing the in-memory snapshot left by the previous one.  Each list
entry carries the submitted payload and whether its persistence call
throws. -/
def runQueue (sys : SysState) (items : List (RawState × Bool)) : SysState :=
  items.foldl (fun acc item => (runUpdate item.2 acc item.1).1) sys

/-- The body of the storage reconciliation listener for one change event
(area local, hydration complete): filter to schema-recognized keys, return
if none remain, push the raw values through computeNextState and diffState
on the queue, return on an empty delta, else advance the snapshot, persist
the derived delta and broadcast it. -/
def reconcileStep (sys : SysState) (changes : List (String × JSValue)) : SysState :=
  let entries := filterSchemaEntries changes
  if entries.isEmpty then sys
  else
    let rawUpdates := buildRawUpdates entries
    let nextState := computeNextState sys.mem rawUpdates
    let delta := diffState sys.mem nextState
    if delta.keys = [] then sys
    else
      { mem := nextState
        store := applyDeltaToStore sys.store delta
        broadcasts := sys.broadcasts ++ [delta] }

/-- An out-of-band raw write to the persistent store (a degraded-path
writer bypassing the pipeline): the raw values land in the store, then
chrome.storage.onChanged fires with the same change entries. -/
def outOfBandWrite (sys : SysState) (changes : List (String × JSValue)) : SysState :=
  { sys with store := applyRawWrite sys.store changes }

/-- Comparison of a raw stored value against a typed boolean state value
(the strict-equality test of diffState when prev is the raw record). -/
def rawEqBool (r : Option JSValue) (b : Bool) : Bool :=
  match r with
  | some (JSValue.vBool b2) => b2 == b
  | _ => false

/-- Comparison of a raw stored value against a typed string state value. -/
def rawEqStr (r : Option JSValue) (s : String) : Bool :=
  match r with
  | some (JSValue.vStr s2) => s2 == s
  | _ => false

/-- Comparison of a raw stored value against a typed null-or-number state
value.  NaN compares unequal to everything, undefined and wrong types are
unequal. -/
def rawEqNumOrNull (r : Option JSValue) (q : Option Rat) : Bool :=
  match r, q with
  | some JSValue.vNull, none => true
  | some (JSValue.vNum q2), some q3 => q2 == q3
  | _, _ => false

/-- Element-wise comparison of a raw array against a typed string list
(areStringArraysEqual with a raw left operand: a non-array or an array
with a non-string or differing element compares unequal). -/
def jsArrEqStrings : List JSValue → List String → Bool
  | [], [] => true
  | JSValue.vStr s :: xs, t :: ts => s == t && jsArrEqStrings xs ts
  | _, _ => false

/-- Comparison of a raw stored value against a typed string-list value. -/
def rawEqStrList (r : Option JSValue) (l : List String) : Bool :=
  match r with
  | some (JSValue.vArr xs) => jsArrEqStrings xs l
  | _ => false

/-- diffState applied during hydration, where prev is the raw record read
from storage (restricted to schema keys) and next the sanitized state:
per key, the sanitized value is kept when it differs from the raw one. -/
def diffStoredState (prev : RawState) (next : State) : Delta :=
  { isEnabled := if rawEqBool prev.isEnabled next.isEnabled then none else some next.isEnabled
    currentTask :=
      if rawEqStr prev.currentTask next.currentTask then none else some next.currentTask
    isInFlow := if rawEqBool prev.isInFlow next.isInFlow then none else some next.isInFlow
    blockDistractions :=
      if rawEqBool prev.blockDistractions next.blockDistractions then none
      else some next.blockDistractions
    breakReminderEnabled :=
      if rawEqBool prev.breakReminderEnabled next.breakReminderEnabled then none
      else some next.breakReminderEnabled
    distractingSites :=
      if rawEqStrList prev.distractingSites next.distractingSites then none
      else some next.distractingSites
    deepWorkBlockedSites :=
      if rawEqStrList prev.deepWorkBlockedSites next.deepWorkBlockedSites then none
      else some next.deepWorkBlockedSites
    reminderStartTime :=
      if rawEqNumOrNull prev.reminderStartTime next.reminderStartTime then none
      else some next.reminderStartTime
    reminderInterval :=
      if rawEqNumOrNull prev.reminderInterval next.reminderInterval then none
      else some next.reminderInterval
    reminderExpectedEndTime :=
      if rawEqNumOrNull prev.reminderExpectedEndTime next.reminderExpectedEndTime then none
      else some next.reminderExpectedEndTime }

/-- Outcome of the initial chrome.storage.local.get(null): either the
callback delivers the stored record (data or an empty object), or the read
throws and the catch branch of ensureInitialized runs. -/
inductive ReadOutcome where
  | ok (data : RawState)
  | failed

/-- Result of a first run of ensureInitialized: the snapshot the returned
promise resolves with, the in-memory state, the store contents after the
self-healing write-back, and the READY flag (hasInitialized). -/
structure HydrationResult where
  resolvedState : State
  mem : State
  store : RawState
  hasInitialized : Bool

/-- The hydration body of ensureInitialized in the background state module
(first call of a process lifetime, so the fast path and the shared
in-flight promise are not involved).  The deprecated-key purge only
touches keys outside the schema, which the store model does not carry, so
it has no observable effect here.  On a read failure the catch branch
still produces the default-sanitized state and reaches READY; the function
is total, so the promise always resolves. -/
def runHydration (read : ReadOutcome) (store0 : RawState) : HydrationResult :=
  match read with
  | ReadOutcome.failed =>
    let st := sanitizeStoredState none
    { resolvedState := st, mem := st, store := store0, hasInitialized := true }
  | ReadOutcome.ok data =>
    let nextState := sanitizeStoredState (some data)
    let deltaToStore := diffStoredState data nextState
    let store1 :=
      if deltaToStore.keys = [] then store0 else applyDeltaToStore store0 deltaToStore
    { resolvedState := nextState, mem := nextState, store := store1, hasInitialized := true }

/-- getState() on the background service: a copy of the full snapshot. -/
def getState (sys : SysState) : State := sys.mem

/-! The trust boundary of the message router. -/

/-- filterPayloadKeys from the background state module, for an array
allowlist: keep the payload entries whose key is allowlisted. -/
def filterPayloadKeys (payload : List (String × JSValue)) (allowedKeys : List String) :
    List (String × JSValue) :=
  payload.filter (fun kv => allowedKeys.contains kv.1)

/-- Modelled from the spec: the UI_ALLOWED_UPDATE_KEYS allowlist lives in
state_contract.js, which is not among the sources; per the spec, external
writers may touch every user-facing field but never the internal timer
bookkeeping fields (reminderStartTime, reminderInterval,
reminderExpectedEndTime), which only internal logic computes. -/
def UI_ALLOWED_UPDATE_KEYS : List String :=
  ["isEnabled", "currentTask", "isInFlow", "blockDistractions", "breakReminderEnabled",
   "distractingSites", "deepWorkBlockedSites"]

/-- Response to an updateState message. -/
structure UpdateResponse where
  success : Bool
  error : Option String
deriving DecidableEq

/-- The updateState branch of the message listener: reject a sender that
is not a trusted extension page (trusted is the outcome of the
sender-URL prefix check of isTrustedExtensionSender), filter the payload
by the allowlist, reject when nothing is left, otherwise run the
filtered payload through the serialized updateState pipeline.  The
rejection branch for a null or non-object payload precedes these checks
in the source and lies outside the typed embedding, whose payload is
always an object. -/
def handleUpdateStateMessage (trusted : Bool) (payload : List (String × JSValue))
    (setFails : Bool) (sys : SysState) : SysState × UpdateResponse :=
  if trusted = false then (sys, { success := false, error := some "Forbidden" })
  else
    let filteredPayload := filterPayloadKeys payload UI_ALLOWED_UPDATE_KEYS
    if filteredPayload.isEmpty then (sys, { success := false, error := some "No valid keys" })
    else
      let r := runUpdate setFails sys (buildRawUpdates filteredPayload)
      (r.1, { success := r.2, error := none })

/-! ### Predicates used by the statements -/

/-- The validation checks of the normalizeDomainList loop, collected into
one predicate over the final hostname (the checks are applied to the very
string that is pushed, so every accepted hostname satisfies them). -/
def validHostname (h : String) : Bool :=
  !(h == "") && !(decide (253 < h.data.length)) && h.data.contains '.' &&
  !strStarts "." h && !strEnds "." h && !hasDoubleDot h.data &&
  !h.data.any jsWhitespace && h.data.all hostChar

/-- All-lowercase in the sense of the case map (a fixed point of
toLowerCase). -/
def isLowerStr (s : String) : Bool := jsToLower s == s

/-- A site list as the spec describes one: no duplicates, all lowercase,
sorted in the order of the sort comparator. -/
def NormalizedSiteList (l : List String) : Prop :=
  l.Nodup ∧ (∀ h ∈ l, isLowerStr h = true) ∧ List.Sorted StrOrder l

instance (l : List String) : Decidable (NormalizedSiteList l) := by
  unfold NormalizedSiteList; infer_instance

/-- The cross-field invariants on the flow fields: an active flow needs a
task, a disabled extension zeroes the flow, task, reminder flag and all
timer fields, and without a flow the timer fields are null together. -/
def FlowInvariant (s : State) : Prop :=
  (s.isInFlow = true → s.currentTask ≠ "") ∧
  (s.isEnabled = false →
    s.isInFlow = false ∧ s.currentTask = "" ∧ s.breakReminderEnabled = false ∧
    s.reminderStartTime = none ∧ s.reminderInterval = none ∧
    s.reminderExpectedEndTime = none) ∧
  (s.isInFlow = false →
    s.reminderStartTime = none ∧ s.reminderInterval = none ∧
    s.reminderExpectedEndTime = none)

instance (s : State) : Decidable (FlowInvariant s) := by
  unfold FlowInvariant; infer_instance

/-- All state invariants: the flow invariants plus normalized site lists. -/
def StateInvariant (s : State) : Prop :=
  FlowInvariant s ∧
  NormalizedSiteList s.distractingSites ∧ NormalizedSiteList s.deepWorkBlockedSites

instance (s : State) : Decidable (StateInvariant s) := by
  unfold StateInvariant; infer_instance

/-! ### Properties of the sort comparator -/

theorem charsLe_total (a b : List Char) : charsLe a b = true ∨ charsLe b a = true := by
  induction a generalizing b with
  | nil => exact Or.inl rfl
  | cons x xs ih =>
    cases b with
    | nil => exact Or.inr rfl
    | cons y ys =>
      rcases Nat.lt_trichotomy x.toNat y.toNat with h | h | h
      · exact Or.inl (by simp [charsLe, h])
      · rcases ih ys with h2 | h2
        · exact Or.inl (by simp [charsLe, h, h2])
        · exact Or.inr (by simp [charsLe, h.symm, h2])
      · exact Or.inr (by simp [charsLe, h])

theorem charsLe_trans (a b c : List Char) (h1 : charsLe a b = true)
    (h2 : charsLe b c = true) : charsLe a c = true := by
  induction a generalizing b c with
  | nil => rfl
  | cons x xs ih =>
    cases b with
    | nil => simp [charsLe] at h1
    | cons y ys =>
      cases c with
      | nil => simp [charsLe] at h2
      | cons z zs =>
        simp only [charsLe] at h1 h2 ⊢
        split_ifs at h1 h2 ⊢ with hxy hxy2 hyz hyz2 hxz hxz2 <;>
          first
          | rfl
          | omega
          | (exact ih ys zs h1 h2)

theorem char_toNat_inj {x y : Char} (h : x.toNat = y.toNat) : x = y :=
  Char.eq_of_val_eq (UInt32.ext h)

theorem charsLe_antisymm (a b : List Char) (h1 : charsLe a b = true)
    (h2 : charsLe b a = true) : a = b := by
  induction a generalizing b with
  | nil =>
    cases b with
    | nil => rfl
    | cons y ys => simp [charsLe] at h2
  | cons x xs ih =>
    cases b with
    | nil => simp [charsLe] at h1
    | cons y ys =>
      simp only [charsLe] at h1 h2
      by_cases hlt : x.toNat < y.toNat
      · rw [if_neg (by omega), if_neg (by omega)] at h2
        exact absurd h2 (by simp)
      · by_cases heq : x.toNat = y.toNat
        · rw [if_neg hlt, if_pos heq] at h1
          rw [if_neg (by omega), if_pos (by omega : y.toNat = x.toNat)] at h2
          rw [char_toNat_inj heq, ih ys h1 h2]
        · rw [if_neg hlt, if_neg heq] at h1
          exact absurd h1 (by simp)

instance : IsTotal String StrOrder :=
  ⟨fun a b => charsLe_total a.data b.data⟩

instance : IsTrans String StrOrder :=
  ⟨fun a b c h1 h2 => charsLe_trans a.data b.data c.data h1 h2⟩

instance : IsAntisymm String StrOrder :=
  ⟨fun a b h1 h2 => by
    cases a; cases b
    exact congrArg String.mk (charsLe_antisymm _ _ h1 h2)⟩

theorem sortStrings_sorted (l : List String) : List.Sorted StrOrder (sortStrings l) :=
  List.sorted_insertionSort StrOrder l

theorem sortStrings_perm (l : List String) : (sortStrings l).Perm l :=
  List.perm_insertionSort StrOrder l

theorem sortStrings_eq_of_sorted {l : List String} (h : List.Sorted StrOrder l) :
    sortStrings l = l :=
  List.eq_of_perm_of_sorted (sortStrings_perm l) (sortStrings_sorted l) h

theorem sortStrings_mem {l : List String} {s : String} :
    s ∈ sortStrings l ↔ s ∈ l :=
  (sortStrings_perm l).mem_iff

theorem sortStrings_nodup {l : List String} (h : l.Nodup) : (sortStrings l).Nodup :=
  ((sortStrings_perm l).nodup_iff).mpr h

theorem sortStrings_length (l : List String) : (sortStrings l).length = l.length :=
  (sortStrings_perm l).length_eq

/-! ### Hostname validation lemmas -/

theorem jsWhitespace_not_hostChar {c : Char} (h : jsWhitespace c = true) :
    hostChar c = false := by
  have hm : c ∈ jsWhitespaceChars := by
    simpa [jsWhitespace] using h
  fin_cases hm <;> rfl

theorem hostChar_not_ws {c : Char} (h : hostChar c = true) : jsWhitespace c = false := by
  cases hws : jsWhitespace c
  · rfl
  · rw [jsWhitespace_not_hostChar hws] at h
    cases h

theorem hostChar_toLower {c : Char} (h : hostChar c = true) : c.toLower = c := by
  simp only [hostChar, Bool.or_eq_true, Bool.and_eq_true, decide_eq_true_eq,
    beq_iff_eq] at h
  rcases h with ((⟨h1, h2⟩ | ⟨h1, h2⟩) | rfl) | rfl
  · unfold Char.toLower
    rw [if_neg (by omega)]
  · unfold Char.toLower
    rw [if_neg (by omega)]
  · rfl
  · rfl

theorem map_toLower_fixed {l : List Char} (h : ∀ c ∈ l, hostChar c = true) :
    l.map Char.toLower = l := by
  induction l with
  | nil => rfl
  | cons a as ih =>
    simp only [List.map_cons, hostChar_toLower (h a (by simp)),
      ih (fun c hc => h c (by simp [hc])), List.cons.injEq, and_self]

theorem jsToLower_fixed {s : String} (h : ∀ c ∈ s.data, hostChar c = true) :
    jsToLower s = s := by
  cases s with
  | mk l => exact congrArg String.mk (map_toLower_fixed h)

theorem dropWhile_eq_self_of_false {p : Char → Bool} {l : List Char}
    (h : ∀ c ∈ l, p c = false) : l.dropWhile p = l := by
  cases l with
  | nil => rfl
  | cons a as => simp [List.dropWhile_cons, h a (by simp)]

theorem jsTrim_fixed {s : String} (h : ∀ c ∈ s.data, jsWhitespace c = false) :
    jsTrim s = s := by
  cases s with
  | mk l =>
    simp only [jsTrim]
    rw [dropWhile_eq_self_of_false h,
      dropWhile_eq_self_of_false (fun c hc => h c (List.mem_reverse.mp hc)),
      List.reverse_reverse]

theorem takeWhile_ne_eq_self {c : Char} {l : List Char} (h : c ∉ l) :
    l.takeWhile (fun d => d ≠ c) = l := by
  induction l with
  | nil => rfl
  | cons a as ih =>
    have ha : a ≠ c := fun he => h (he ▸ List.mem_cons_self a as)
    rw [List.takeWhile_cons_of_pos (by simp [ha]),
      ih (fun hm => h (List.mem_cons_of_mem a hm))]

theorem takeUntil_fixed {c : Char} {s : String} (h : c ∉ s.data) : takeUntil c s = s := by
  cases s with
  | mk l => exact congrArg String.mk (takeWhile_ne_eq_self h)

theorem charsStart_subset {p l : List Char} (h : charsStart p l = true) :
    ∀ c ∈ p, c ∈ l := by
  induction p generalizing l with
  | nil => intro c hc; cases hc
  | cons q qs ih =>
    cases l with
    | nil => cases h
    | cons a as =>
      simp only [charsStart, Bool.and_eq_true, beq_iff_eq] at h
      intro c hc
      rcases List.mem_cons.mp hc with rfl | hc
      · exact h.1 ▸ List.mem_cons_self a as
      · exact List.mem_cons_of_mem a (ih h.2 c hc)

theorem hostchars_no_colon {s : String} (hall : ∀ c ∈ s.data, hostChar c = true) :
    (':' : Char) ∉ s.data := fun hm => by
  have := hall _ hm
  simp [hostChar] at this

theorem stripProtocol_fixed {s : String} (hall : ∀ c ∈ s.data, hostChar c = true) :
    stripProtocol s = s := by
  unfold stripProtocol
  rw [if_neg, if_neg]
  · intro hs
    exact hostchars_no_colon hall (charsStart_subset hs ':' (by decide))
  · intro hs
    exact hostchars_no_colon hall (charsStart_subset hs ':' (by decide))

theorem stripWwwDot_fixed {s : String} (h : strStarts "www." s = false) :
    stripWwwDot s = s := by
  unfold stripWwwDot
  rw [if_neg (by simp [h])]

theorem hostchars_not_mem {s : String} (hall : ∀ c ∈ s.data, hostChar c = true)
    {c : Char} (hc : hostChar c = false) : c ∉ s.data := fun hm => by
  rw [hall _ hm] at hc
  cases hc

theorem validHostname_all_hostChar {h : String} (hv : validHostname h = true) :
    ∀ c ∈ h.data, hostChar c = true := by
  simp only [validHostname, Bool.and_eq_true] at hv
  exact List.all_eq_true.mp hv.2

theorem validHostname_lower {h : String} (hv : validHostname h = true) :
    isLowerStr h = true := by
  simp [isLowerStr, jsToLower_fixed (validHostname_all_hostChar hv)]

theorem normItem_fixed {h : String} (hv : validHostname h = true)
    (hw : strStarts "www." h = false) : normItem (JSValue.vStr h) = some h := by
  simp only [validHostname, Bool.and_eq_true] at hv
  obtain ⟨⟨⟨⟨⟨⟨⟨h1, h2⟩, h3⟩, h4⟩, h5⟩, h6⟩, h7⟩, h8⟩ := hv
  have hall : ∀ c ∈ h.data, hostChar c = true := List.all_eq_true.mp h8
  have hne : ¬(h = "") := by simpa using h1
  have hlen : ¬(253 < h.data.length) := by simpa using h2
  have hnws : ∀ c ∈ h.data, jsWhitespace c = false := fun c hc => hostChar_not_ws (hall c hc)
  have etrim : jsTrim h = h := jsTrim_fixed hnws
  have elower : jsToLower h = h := jsToLower_fixed hall
  have eslash : takeUntil '/' h = h := takeUntil_fixed (hostchars_not_mem hall (by decide))
  have equest : takeUntil '?' h = h := takeUntil_fixed (hostchars_not_mem hall (by decide))
  have ehash : takeUntil '#' h = h := takeUntil_fixed (hostchars_not_mem hall (by decide))
  have eproto : stripProtocol h = h := stripProtocol_fixed hall
  have ewww : stripWwwDot h = h := stripWwwDot_fixed hw
  have hb4 : strStarts "." h = false := by simpa using h4
  have hb5 : strEnds "." h = false := by simpa using h5
  have hb6 : hasDoubleDot h.data = false := by simpa using h6
  have hb7 : h.data.any jsWhitespace = false := by simpa using h7
  simp only [normItem, etrim, elower, eproto, eslash, equest, ehash, ewww]
  rw [if_neg hne, if_neg hne, if_neg hlen]
  simp [hb4, hb5, hb6, hb7, h8]
  simpa using h3

theorem normItem_valid {v : JSValue} {h : String} (hv : normItem v = some h) :
    validHostname h = true := by
  cases v with
  | vNull => simp [normItem] at hv
  | vUndefined => simp [normItem] at hv
  | vBool b => simp [normItem] at hv
  | vNum q => simp [normItem] at hv
  | vNaN => simp [normItem] at hv
  | vArr xs => simp [normItem] at hv
  | vObj => simp [normItem] at hv
  | vStr s =>
    simp only [normItem] at hv
    split_ifs at hv with c1 c2 c3 c4 c5 c6 c7 c8 c9
    obtain rfl := Option.some.inj hv
    simp only [validHostname, Bool.and_eq_true]
    refine ⟨⟨⟨⟨⟨⟨⟨?_, ?_⟩, ?_⟩, ?_⟩, ?_⟩, ?_⟩, ?_⟩, ?_⟩
    · simpa using c2
    · simpa using c3
    · simpa using c4
    · simpa using c5
    · simpa using c6
    · simpa using c7
    · simpa using c8
    · simpa using c9

/-! ### Properties of the hostname collection loop -/

theorem collectHostnames_nodup (maxItems : Nat) (xs : List JSValue) :
    ∀ out : List String, out.Nodup → (collectHostnames maxItems xs out).Nodup := by
  induction xs with
  | nil => intro out h; exact h
  | cons v rest ih =>
    intro out h
    simp only [collectHostnames]
    cases hn : normItem v with
    | none => exact ih out h
    | some host =>
      by_cases hm : out.contains host = true
      · simp only [hm, if_true]
        exact ih out h
      · have hnotin : host ∉ out := by simpa using hm
        have h2 : (out ++ [host]).Nodup := by
          simp [List.nodup_append, h, List.disjoint_singleton, hnotin]
        simp only [Bool.not_eq_true] at hm
        simp only [hm, Bool.false_eq_true, if_false]
        by_cases hmax : maxItems ≤ out.length + 1
        · simp only [hmax, if_true]
          exact h2
        · simp only [hmax, if_false]
          exact ih _ h2

theorem collectHostnames_valid (maxItems : Nat) (xs : List JSValue) :
    ∀ out : List String, (∀ h ∈ out, validHostname h = true) →
      ∀ h ∈ collectHostnames maxItems xs out, validHostname h = true := by
  induction xs with
  | nil => intro out h0; exact h0
  | cons v rest ih =>
    intro out h0
    simp only [collectHostnames]
    cases hn : normItem v with
    | none => exact ih out h0
    | some host =>
      have hvalid : validHostname host = true := normItem_valid hn
      have h1 : ∀ h ∈ out ++ [host], validHostname h = true := by
        intro h hm
        rcases List.mem_append.mp hm with hm | hm
        · exact h0 h hm
        · rw [List.mem_singleton.mp hm]
          exact hvalid
      by_cases hm : out.contains host = true
      · simp only [hm, if_true]
        exact ih out h0
      · simp only [Bool.not_eq_true] at hm
        simp only [hm, Bool.false_eq_true, if_false]
        by_cases hmax : maxItems ≤ out.length + 1
        · simp only [hmax, if_true]
          exact h1
        · simp only [hmax, if_false]
          exact ih _ h1

theorem collectHostnames_length (maxItems : Nat) (xs : List JSValue) :
    ∀ out : List String, out.length < maxItems →
      (collectHostnames maxItems xs out).length ≤ maxItems := by
  induction xs with
  | nil => intro out h; exact Nat.le_of_lt h
  | cons v rest ih =>
    intro out h
    simp only [collectHostnames]
    cases hn : normItem v with
    | none => exact ih out h
    | some host =>
      by_cases hm : out.contains host = true
      · simp only [hm, if_true]
        exact ih out h
      · simp only [Bool.not_eq_true] at hm
        simp only [hm, Bool.false_eq_true, if_false]
        by_cases hmax : maxItems ≤ out.length + 1
        · simp only [hmax, if_true, List.length_append, List.length_singleton]
          omega
        · simp only [hmax, if_false]
          exact ih _ (by simp only [List.length_append, List.length_singleton]; omega)

theorem collectHostnames_fixed (maxItems : Nat) (L : List String) :
    ∀ out : List String, (∀ i ∈ L, normItem (JSValue.vStr i) = some i) →
      (out ++ L).Nodup → out.length + L.length ≤ maxItems →
      collectHostnames maxItems (L.map JSValue.vStr) out = out ++ L := by
  induction L with
  | nil => intro out _ _ _; simp [collectHostnames]
  | cons i rest ih =>
    intro out hfix hnd hlen
    simp only [List.map_cons, collectHostnames, hfix i (by simp)]
    have hni : i ∉ out := by
      intro hm
      have := (List.nodup_append.mp hnd).2.2
      exact this hm (by simp)
    have hnib : out.contains i = false := by simpa using hni
    simp only [hnib, Bool.false_eq_true, if_false]
    by_cases hmax : maxItems ≤ out.length + 1
    · have hrest : rest = [] := by
        cases rest with
        | nil => rfl
        | cons r rs => simp only [List.length_cons] at hlen; omega
      subst hrest
      simp only [hmax, if_true]
    · simp only [hmax, if_false]
      have hnd2 : ((out ++ [i]) ++ rest).Nodup := by
        rw [List.append_assoc]
        simpa using hnd
      rw [ih (out ++ [i]) (fun j hj => hfix j (by simp [hj])) hnd2
        (by simp only [List.length_append, List.length_singleton, List.length_cons,
              List.length_nil] at hlen ⊢; omega)]
      simp

/-! ### Properties of normalizeDomainList -/

theorem normalizeDomainList_arr_normalized (xs : List JSValue) (fb : List String) :
    NormalizedSiteList (normalizeDomainList (JSValue.vArr xs) fb MAX_SITE_LIST_ITEMS) := by
  simp only [normalizeDomainList]
  refine ⟨sortStrings_nodup (collectHostnames_nodup _ xs [] List.nodup_nil), ?_,
    sortStrings_sorted _⟩
  intro h hm
  exact validHostname_lower
    (collectHostnames_valid _ xs [] (by intro h hm; cases hm) h (sortStrings_mem.mp hm))

theorem normalizeDomainList_normalized (value : JSValue) (fb : List String)
    (hfb : NormalizedSiteList fb) :
    NormalizedSiteList (normalizeDomainList value fb MAX_SITE_LIST_ITEMS) := by
  cases value with
  | vArr xs => exact normalizeDomainList_arr_normalized xs fb
  | vNull => exact hfb
  | vUndefined => exact hfb
  | vBool b => exact hfb
  | vNum q => exact hfb
  | vNaN => exact hfb
  | vStr s => exact hfb
  | vObj => exact hfb

theorem normalizeDomainList_arr_length (xs : List JSValue) (fb : List String) :
    (normalizeDomainList (JSValue.vArr xs) fb MAX_SITE_LIST_ITEMS).length ≤ 200 := by
  simp only [normalizeDomainList, sortStrings_length]
  exact collectHostnames_length _ xs [] (by simp [MAX_SITE_LIST_ITEMS])

theorem normalizeDomainList_arr_valid (xs : List JSValue) (fb : List String) :
    ∀ h ∈ normalizeDomainList (JSValue.vArr xs) fb MAX_SITE_LIST_ITEMS,
      validHostname h = true := by
  simp only [normalizeDomainList]
  intro h hm
  exact collectHostnames_valid _ xs [] (by intro h hm; cases hm) h (sortStrings_mem.mp hm)

/-- Null-or-in-range side condition the interval normalizer maintains. -/
def IntervalOk (o : Option Rat) : Prop :=
  ∀ q : Rat, o = some q → MIN_INTERVAL_MS ≤ q ∧ q ≤ MAX_INTERVAL_MS

theorem normalizeDomainList_nodup (v : JSValue) (fb : List String) (maxItems : Nat)
    (hfb : fb.Nodup) : (normalizeDomainList v fb maxItems).Nodup := by
  cases v with
  | vArr xs => exact sortStrings_nodup (collectHostnames_nodup _ xs [] List.nodup_nil)
  | vNull => exact hfb
  | vUndefined => exact hfb
  | vBool b => exact hfb
  | vNum q => exact hfb
  | vNaN => exact hfb
  | vStr t => exact hfb
  | vObj => exact hfb

theorem normalizeDomainList_valid_all (v : JSValue) (fb : List String) (maxItems : Nat)
    (hfb : ∀ h ∈ fb, validHostname h = true) :
    ∀ h ∈ normalizeDomainList v fb maxItems, validHostname h = true := by
  cases v with
  | vArr xs =>
    intro h hm
    exact collectHostnames_valid _ xs [] (by intro j hj; cases hj) h (sortStrings_mem.mp hm)
  | vNull => exact hfb
  | vUndefined => exact hfb
  | vBool b => exact hfb
  | vNum q => exact hfb
  | vNaN => exact hfb
  | vStr t => exact hfb
  | vObj => exact hfb

theorem normalizeDomainList_length (v : JSValue) (fb : List String)
    (hfb : fb.length ≤ 200) :
    (normalizeDomainList v fb MAX_SITE_LIST_ITEMS).length ≤ 200 := by
  cases v with
  | vArr xs => exact normalizeDomainList_arr_length xs fb
  | vNull => exact hfb
  | vUndefined => exact hfb
  | vBool b => exact hfb
  | vNum q => exact hfb
  | vNaN => exact hfb
  | vStr t => exact hfb
  | vObj => exact hfb

/-! ### Round trips of the normalizers on already-sanitized values -/

theorem numOrNull_roundtrip (o fb : Option Rat) :
    normalizeNumberOrNull (numOrNullToRaw o) fb = o := by
  cases o <;> rfl

theorem normalizeIntervalMs_roundtrip {o : Option Rat} (ho : IntervalOk o)
    (fb : Option Rat) : normalizeIntervalMs (numOrNullToRaw o) fb = o := by
  cases o with
  | none => rfl
  | some q =>
    obtain ⟨l, r⟩ := ho q rfl
    simp only [numOrNullToRaw, normalizeIntervalMs]
    rw [if_neg]
    intro hc
    rcases hc with hc | hc
    · exact absurd hc (not_lt.mpr l)
    · exact absurd hc (not_lt.mpr r)

theorem normalizeTask_fixed {t : String} (fb : String) (ht : jsTrim t = t)
    (hlen : t.data.length ≤ 120) : normalizeTask (JSValue.vStr t) fb = t := by
  simp only [normalizeTask, ht]
  by_cases he : t = ""
  · subst he; simp
  · rw [if_neg he, if_neg (by simp only [MAX_TASK_LENGTH]; omega)]

theorem normalizeTask_len (v : JSValue) (fb : String) (hfb : fb.data.length ≤ 120) :
    (normalizeTask v fb).data.length ≤ 120 := by
  cases v with
  | vStr t =>
    simp only [normalizeTask]
    split_ifs with h1 h2
    · simp
    · simp only [strTake, List.length_take, MAX_TASK_LENGTH]
      omega
    · simp only [MAX_TASK_LENGTH] at h2
      omega
  | vNull => exact hfb
  | vUndefined => exact hfb
  | vBool b => exact hfb
  | vNum q => exact hfb
  | vNaN => exact hfb
  | vArr xs => exact hfb
  | vObj => exact hfb

theorem normalizeIntervalMs_ok (v : JSValue) {fb : Option Rat} (hfb : IntervalOk fb) :
    IntervalOk (normalizeIntervalMs v fb) := by
  cases v with
  | vNull => intro q hq; cases hq
  | vNum q0 =>
    simp only [normalizeIntervalMs]
    split_ifs with h
    · exact hfb
    · intro q hq
      obtain rfl := Option.some.inj hq
      push_neg at h
      exact ⟨h.1, h.2⟩
  | vUndefined => exact hfb
  | vBool b => exact hfb
  | vNaN => exact hfb
  | vStr t => exact hfb
  | vArr xs => exact hfb
  | vObj => exact hfb

theorem normalizeDomainList_roundtrip {L : List String}
    (hval : ∀ h ∈ L, validHostname h = true)
    (hwww : ∀ h ∈ L, strStarts "www." h = false)
    (hnd : L.Nodup) (hsorted : List.Sorted StrOrder L) (hlen : L.length ≤ 200)
    (fb : List String) :
    normalizeDomainList (strListToRaw L) fb MAX_SITE_LIST_ITEMS = L := by
  simp only [strListToRaw, normalizeDomainList]
  rw [collectHostnames_fixed MAX_SITE_LIST_ITEMS L []
    (fun i hi => normItem_fixed (hval i hi) (hwww i hi)) (by simpa using hnd)
    (by simpa [MAX_SITE_LIST_ITEMS] using hlen)]
  simpa using sortStrings_eq_of_sorted hsorted

/-! ### Properties of the invariant enforcement pass -/

theorem enforce_frame (s : State) :
    (enforceStateInvariants s).isEnabled = s.isEnabled ∧
    (enforceStateInvariants s).blockDistractions = s.blockDistractions ∧
    (enforceStateInvariants s).distractingSites = s.distractingSites ∧
    (enforceStateInvariants s).deepWorkBlockedSites = s.deepWorkBlockedSites := by
  simp only [enforceStateInvariants]
  split_ifs <;> exact ⟨rfl, rfl, rfl, rfl⟩

theorem enforce_flowInvariant (s : State) : FlowInvariant (enforceStateInvariants s) := by
  simp only [enforceStateInvariants, FlowInvariant]
  split_ifs <;> simp_all

/-- The strengthening of the flow invariants that the enforcement pass
actually establishes: without an active flow the break-reminder flag is
also cleared.  This is what makes the pass idempotent. -/
def FlowTight (s : State) : Prop :=
  FlowInvariant s ∧ (s.isInFlow = false → s.breakReminderEnabled = false)

theorem enforce_flowTight (s : State) : FlowTight (enforceStateInvariants s) := by
  refine ⟨enforce_flowInvariant s, ?_⟩
  simp only [enforceStateInvariants]
  split_ifs <;> simp_all

theorem enforce_fixed {s : State} (h : FlowTight s) : enforceStateInvariants s = s := by
  obtain ⟨⟨i1, i2, i3⟩, i4⟩ := h
  cases s with
  | mk e t f bd br ds dw rs ri re =>
    simp only [enforceStateInvariants]
    dsimp only at i1 i2 i3 i4 ⊢
    split_ifs <;> simp_all

theorem enforce_idem (s : State) :
    enforceStateInvariants (enforceStateInvariants s) = enforceStateInvariants s :=
  enforce_fixed (enforce_flowTight s)

theorem state_ext {a b : State} (h1 : a.isEnabled = b.isEnabled)
    (h2 : a.currentTask = b.currentTask) (h3 : a.isInFlow = b.isInFlow)
    (h4 : a.blockDistractions = b.blockDistractions)
    (h5 : a.breakReminderEnabled = b.breakReminderEnabled)
    (h6 : a.distractingSites = b.distractingSites)
    (h7 : a.deepWorkBlockedSites = b.deepWorkBlockedSites)
    (h8 : a.reminderStartTime = b.reminderStartTime)
    (h9 : a.reminderInterval = b.reminderInterval)
    (h10 : a.reminderExpectedEndTime = b.reminderExpectedEndTime) : a = b := by
  cases a
  cases b
  simp_all

/-! ### Facts about the sanitizer output -/

theorem sanitize_flowTight (x : Option RawState) : FlowTight (sanitizeStoredState x) := by
  unfold sanitizeStoredState
  exact enforce_flowTight _

theorem sanitize_distractingSites (x : Option RawState) :
    (sanitizeStoredState x).distractingSites =
      normalizeDomainList (jsGet (x.getD emptyRawState).distractingSites)
        DEFAULT_DISTRACTING_SITES MAX_SITE_LIST_ITEMS := by
  unfold sanitizeStoredState
  exact (enforce_frame _).2.2.1

theorem sanitize_deepWorkBlockedSites (x : Option RawState) :
    (sanitizeStoredState x).deepWorkBlockedSites =
      normalizeDomainList (jsGet (x.getD emptyRawState).deepWorkBlockedSites)
        DEFAULT_DEEPWORK_BLOCKED_SITES MAX_SITE_LIST_ITEMS := by
  unfold sanitizeStoredState
  exact (enforce_frame _).2.2.2

theorem enforce_task_cases (s : State) :
    (enforceStateInvariants s).currentTask = s.currentTask ∨
    (enforceStateInvariants s).currentTask = "" := by
  simp only [enforceStateInvariants]
  split_ifs <;> simp

theorem enforce_interval_cases (s : State) :
    (enforceStateInvariants s).reminderInterval = s.reminderInterval ∨
    (enforceStateInvariants s).reminderInterval = none := by
  simp only [enforceStateInvariants]
  split_ifs <;> simp

theorem enforce_task_len {s : State} (h : s.currentTask.data.length ≤ 120) :
    (enforceStateInvariants s).currentTask.data.length ≤ 120 := by
  rcases enforce_task_cases s with he | he <;> rw [he]
  · exact h
  · simp

theorem enforce_interval_ok {s : State} (h : IntervalOk s.reminderInterval) :
    IntervalOk (enforceStateInvariants s).reminderInterval := by
  rcases enforce_interval_cases s with he | he <;> rw [he]
  · exact h
  · intro q hq; cases hq

theorem sanitize_task_len (x : Option RawState) :
    (sanitizeStoredState x).currentTask.data.length ≤ 120 := by
  unfold sanitizeStoredState
  exact enforce_task_len (normalizeTask_len _ _ (by decide))

theorem sanitize_interval_ok (x : Option RawState) :
    IntervalOk (sanitizeStoredState x).reminderInterval := by
  unfold sanitizeStoredState
  exact enforce_interval_ok (normalizeIntervalMs_ok _ (fun q hq => by cases hq))

theorem sanitize_dist_facts (x : Option RawState) :
    (sanitizeStoredState x).distractingSites.Nodup ∧
    (∀ h ∈ (sanitizeStoredState x).distractingSites, validHostname h = true) ∧
    (sanitizeStoredState x).distractingSites.length ≤ 200 := by
  rw [sanitize_distractingSites]
  exact ⟨normalizeDomainList_nodup _ _ _ (by decide),
    normalizeDomainList_valid_all _ _ _ (by decide),
    normalizeDomainList_length _ _ (by decide)⟩

theorem sanitize_deep_facts (x : Option RawState) :
    (sanitizeStoredState x).deepWorkBlockedSites.Nodup ∧
    (∀ h ∈ (sanitizeStoredState x).deepWorkBlockedSites, validHostname h = true) ∧
    (sanitizeStoredState x).deepWorkBlockedSites.length ≤ 200 := by
  rw [sanitize_deepWorkBlockedSites]
  exact ⟨normalizeDomainList_nodup _ _ _ (by decide),
    normalizeDomainList_valid_all _ _ _ (by decide),
    normalizeDomainList_length _ _ (by decide)⟩

/-- Sanitizing the storage image of an already-clean state is the
identity: the key round-trip lemma behind the idempotence analysis. -/
theorem sanitize_of_clean {s : State} (hft : FlowTight s)
    (htask : jsTrim s.currentTask = s.currentTask)
    (htlen : s.currentTask.data.length ≤ 120)
    (hnd1 : s.distractingSites.Nodup)
    (hval1 : ∀ h ∈ s.distractingSites, validHostname h = true)
    (hlen1 : s.distractingSites.length ≤ 200)
    (hs1 : List.Sorted StrOrder s.distractingSites)
    (hw1 : ∀ h ∈ s.distractingSites, strStarts "www." h = false)
    (hnd2 : s.deepWorkBlockedSites.Nodup)
    (hval2 : ∀ h ∈ s.deepWorkBlockedSites, validHostname h = true)
    (hlen2 : s.deepWorkBlockedSites.length ≤ 200)
    (hs2 : List.Sorted StrOrder s.deepWorkBlockedSites)
    (hw2 : ∀ h ∈ s.deepWorkBlockedSites, strStarts "www." h = false)
    (hint : IntervalOk s.reminderInterval) :
    sanitizeStoredState (some (stateToRaw s)) = s := by
  simp only [sanitizeStoredState, stateToRaw, jsGet, Option.getD]
  refine Eq.trans (congrArg enforceStateInvariants ?_) (enforce_fixed hft)
  apply state_ext
  all_goals dsimp only
  · rfl
  · exact normalizeTask_fixed _ htask htlen
  · rfl
  · rfl
  · rfl
  · exact normalizeDomainList_roundtrip hval1 hw1 hnd1 hs1 hlen1 _
  · exact normalizeDomainList_roundtrip hval2 hw2 hnd2 hs2 hlen2 _
  · exact numOrNull_roundtrip _ _
  · exact normalizeIntervalMs_roundtrip hint _
  · exact numOrNull_roundtrip _ _

/-! ### Properties of the diff -/

theorem diff_field_eq {α : Type} {name : String} {c : Prop} [Decidable c] {v : α}
    (h : optKey name (if c then some v else none) = []) : ¬c := by
  by_cases hc : c
  · simp [hc, optKey] at h
  · exact hc

theorem diff_field_eq2 {α : Type} {name : String} {c : Bool} {v : α}
    (h : optKey name (if c = true then none else some v) = []) : c = true := by
  by_cases hc : c = true
  · exact hc
  · simp [hc, optKey] at h

theorem diffState_keys_nil {a b : State} (h : (diffState a b).keys = []) : a = b := by
  simp only [Delta.keys, diffState, List.append_eq_nil] at h
  obtain ⟨⟨⟨⟨⟨⟨⟨⟨⟨h1, h2⟩, h3⟩, h4⟩, h5⟩, h6⟩, h7⟩, h8⟩, h9⟩, h10⟩ := h
  have e1 := of_not_not (diff_field_eq h1)
  have e2 := of_not_not (diff_field_eq h2)
  have e3 := of_not_not (diff_field_eq h3)
  have e4 := of_not_not (diff_field_eq h4)
  have e5 := of_not_not (diff_field_eq h5)
  have e6 : a.distractingSites = b.distractingSites := by
    have := diff_field_eq2 h6
    simpa [areStringArraysEqual] using this
  have e7 : a.deepWorkBlockedSites = b.deepWorkBlockedSites := by
    have := diff_field_eq2 h7
    simpa [areStringArraysEqual] using this
  have e8 := of_not_not (diff_field_eq h8)
  have e9 := of_not_not (diff_field_eq h9)
  have e10 := of_not_not (diff_field_eq h10)
  exact state_ext e1 e2 e3 e4 e5 e6 e7 e8 e9 e10

/-! ### Properties of the update pipeline -/

theorem runUpdate_mem (setFails : Bool) (sys : SysState) (u : RawState) :
    (runUpdate setFails sys u).1.mem = computeNextState sys.mem u := by
  simp only [runUpdate]
  split_ifs with h1 h2
  · exact diffState_keys_nil h1
  · rfl
  · rfl

theorem runQueue_mem (items : List (RawState × Bool)) :
    ∀ sys : SysState,
      (runQueue sys items).mem = (items.map Prod.fst).foldl computeNextState sys.mem := by
  induction items with
  | nil => intro sys; rfl
  | cons item rest ih =>
    intro sys
    simp only [runQueue, List.foldl_cons, List.map_cons]
    rw [show (List.foldl (fun acc it => (runUpdate it.2 acc it.1).1) (runUpdate item.2 sys item.1).1 rest) = runQueue (runUpdate item.2 sys item.1).1 rest from rfl]
    rw [ih, runUpdate_mem]


/-! ### Properties of computeNextState -/

theorem computeNextState_flowInvariant (current : State) (u : RawState) :
    FlowInvariant (computeNextState current u) := by
  unfold computeNextState
  exact enforce_flowInvariant _

theorem computeNextState_distractingSites (current : State) (u : RawState) :
    (computeNextState current u).distractingSites =
      match u.distractingSites with
      | some v => normalizeDomainList v current.distractingSites MAX_SITE_LIST_ITEMS
      | none => current.distractingSites := by
  unfold computeNextState
  exact (enforce_frame _).2.2.1

theorem computeNextState_deepWorkBlockedSites (current : State) (u : RawState) :
    (computeNextState current u).deepWorkBlockedSites =
      match u.deepWorkBlockedSites with
      | some v => normalizeDomainList v current.deepWorkBlockedSites MAX_SITE_LIST_ITEMS
      | none => current.deepWorkBlockedSites := by
  unfold computeNextState
  exact (enforce_frame _).2.2.2

theorem computeNextState_dist_normalized (current : State) (u : RawState)
    (hc : NormalizedSiteList current.distractingSites) :
    NormalizedSiteList (computeNextState current u).distractingSites := by
  rw [computeNextState_distractingSites]
  cases u.distractingSites with
  | none => exact hc
  | some v => exact normalizeDomainList_normalized v _ hc

theorem computeNextState_deep_normalized (current : State) (u : RawState)
    (hc : NormalizedSiteList current.deepWorkBlockedSites) :
    NormalizedSiteList (computeNextState current u).deepWorkBlockedSites := by
  rw [computeNextState_deepWorkBlockedSites]
  cases u.deepWorkBlockedSites with
  | none => exact hc
  | some v => exact normalizeDomainList_normalized v _ hc

/-! ### Store recording of a delta -/

/-- The store holds the raw image of every value the delta carries. -/
def storeRecordsDelta (delta : Delta) (store : RawState) : Prop :=
  (∀ b, delta.isEnabled = some b → store.isEnabled = some (JSValue.vBool b)) ∧
  (∀ t, delta.currentTask = some t → store.currentTask = some (JSValue.vStr t)) ∧
  (∀ b, delta.isInFlow = some b → store.isInFlow = some (JSValue.vBool b)) ∧
  (∀ b, delta.blockDistractions = some b → store.blockDistractions = some (JSValue.vBool b)) ∧
  (∀ b, delta.breakReminderEnabled = some b →
    store.breakReminderEnabled = some (JSValue.vBool b)) ∧
  (∀ l, delta.distractingSites = some l → store.distractingSites = some (strListToRaw l)) ∧
  (∀ l, delta.deepWorkBlockedSites = some l →
    store.deepWorkBlockedSites = some (strListToRaw l)) ∧
  (∀ q, delta.reminderStartTime = some q →
    store.reminderStartTime = some (numOrNullToRaw q)) ∧
  (∀ q, delta.reminderInterval = some q →
    store.reminderInterval = some (numOrNullToRaw q)) ∧
  (∀ q, delta.reminderExpectedEndTime = some q →
    store.reminderExpectedEndTime = some (numOrNullToRaw q))

theorem applyDelta_records (store : RawState) (delta : Delta) :
    storeRecordsDelta delta (applyDeltaToStore store delta) := by
  refine ⟨?_, ?_, ?_, ?_, ?_, ?_, ?_, ?_, ?_, ?_⟩ <;>
    intro v hv <;> simp [applyDeltaToStore, hv]

/-! ### The reconciliation step -/

theorem reconcileStep_spec (sys : SysState) (changes : List (String × JSValue))
    (hne : filterSchemaEntries changes ≠ []) :
    (reconcileStep sys changes).mem =
      computeNextState sys.mem (buildRawUpdates (filterSchemaEntries changes)) ∧
    ((diffState sys.mem
        (computeNextState sys.mem (buildRawUpdates (filterSchemaEntries changes)))).keys =
          [] →
      reconcileStep sys changes = sys) ∧
    ((diffState sys.mem
        (computeNextState sys.mem (buildRawUpdates (filterSchemaEntries changes)))).keys ≠
          [] →
      (reconcileStep sys changes).broadcasts =
        sys.broadcasts ++
          [diffState sys.mem
            (computeNextState sys.mem (buildRawUpdates (filterSchemaEntries changes)))] ∧
      storeRecordsDelta
        (diffState sys.mem
          (computeNextState sys.mem (buildRawUpdates (filterSchemaEntries changes))))
        (reconcileStep sys changes).store) := by
  have hempty : (filterSchemaEntries changes).isEmpty = false := by
    cases hfe : filterSchemaEntries changes with
    | nil => exact absurd hfe hne
    | cons a l => rfl
  refine ⟨?_, ?_, ?_⟩
  · simp only [reconcileStep, hempty, Bool.false_eq_true, if_false]
    by_cases hk :
        (diffState sys.mem
          (computeNextState sys.mem (buildRawUpdates (filterSchemaEntries changes)))).keys = []
    · rw [if_pos hk]
      exact diffState_keys_nil hk
    · rw [if_neg hk]
  · intro hk
    simp only [reconcileStep, hempty, Bool.false_eq_true, if_false]
    rw [if_pos hk]
  · intro hk
    simp only [reconcileStep, hempty, Bool.false_eq_true, if_false]
    rw [if_neg hk]
    exact ⟨rfl, applyDelta_records _ _⟩

/-! ### The payload allowlist filter -/

theorem filterPayloadKeys_mem {payload : List (String × JSValue)}
    {allowed : List String} :
    ∀ kv ∈ filterPayloadKeys payload allowed, kv.1 ∈ allowed := by
  intro kv hm
  have := List.of_mem_filter hm
  simpa using this

theorem filterPayloadKeys_idem (payload : List (String × JSValue))
    (allowed : List String) :
    filterPayloadKeys (filterPayloadKeys payload allowed) allowed =
      filterPayloadKeys payload allowed := by
  simp only [filterPayloadKeys, List.filter_filter, Bool.and_self]

theorem foldl_setRawField_timers (entries : List (String × JSValue)) :
    ∀ r : RawState, (∀ kv ∈ entries, kv.1 ∈ UI_ALLOWED_UPDATE_KEYS) →
      (entries.foldl (fun st kv => setRawField st kv.1 kv.2) r).reminderStartTime =
          r.reminderStartTime ∧
      (entries.foldl (fun st kv => setRawField st kv.1 kv.2) r).reminderInterval =
          r.reminderInterval ∧
      (entries.foldl (fun st kv => setRawField st kv.1 kv.2) r).reminderExpectedEndTime =
          r.reminderExpectedEndTime := by
  induction entries with
  | nil => intro r _; exact ⟨rfl, rfl, rfl⟩
  | cons kv rest ih =>
    intro r hall
    have hk : kv.1 ∈ UI_ALLOWED_UPDATE_KEYS := hall kv (by simp)
    have hframe : (setRawField r kv.1 kv.2).reminderStartTime = r.reminderStartTime ∧
        (setRawField r kv.1 kv.2).reminderInterval = r.reminderInterval ∧
        (setRawField r kv.1 kv.2).reminderExpectedEndTime = r.reminderExpectedEndTime := by
      simp only [UI_ALLOWED_UPDATE_KEYS, List.mem_cons, List.not_mem_nil, or_false] at hk
      rcases hk with hk | hk | hk | hk | hk | hk | hk
      all_goals (rw [hk]; simp [setRawField])
    obtain ⟨f1, f2, f3⟩ := hframe
    have := ih (setRawField r kv.1 kv.2) (fun kv2 h2 => hall kv2 (by simp [h2]))
    simp only [List.foldl_cons]
    exact ⟨this.1.trans f1, this.2.1.trans f2, this.2.2.trans f3⟩

theorem buildRawUpdates_timers (entries : List (String × JSValue))
    (h : ∀ kv ∈ entries, kv.1 ∈ UI_ALLOWED_UPDATE_KEYS) :
    (buildRawUpdates entries).reminderStartTime = none ∧
    (buildRawUpdates entries).reminderInterval = none ∧
    (buildRawUpdates entries).reminderExpectedEndTime = none :=
  foldl_setRawField_timers entries emptyRawState h


/-! ### Concrete instances used by the claim scenarios -/

/-- The site-list update of the hostnames scenario. -/
def sitesScenarioUpdate : RawState :=
  { distractingSites := some (JSValue.vArr
      [JSValue.vStr "WWW.Foo.com", JSValue.vStr "foo.com", JSValue.vStr "bar.com"]) }

/-- The current state of the disable scenario: enabled, in flow on the
task "write report", timer fields set, other fields at their defaults. -/
def disableScenarioPrior : State :=
  { isEnabled := true
    currentTask := "write report"
    isInFlow := true
    blockDistractions := true
    breakReminderEnabled := false
    distractingSites := DEFAULT_DISTRACTING_SITES
    deepWorkBlockedSites := DEFAULT_DEEPWORK_BLOCKED_SITES
    reminderStartTime := some 1000
    reminderInterval := some 60000
    reminderExpectedEndTime := some 61000 }

/-- The disable scenario update. -/
def disableScenarioUpdate : RawState := { isEnabled := some (JSValue.vBool false) }

/-- A fully persisted default system: hydrated snapshot, its storage
image, no broadcasts yet. -/
def defaultSys : SysState :=
  { mem := getDefaultState, store := stateToRaw getDefaultState, broadcasts := [] }

/-- A simple task update. -/
def taskUpdate : RawState := { currentTask := some (JSValue.vStr "x") }

/-- An out-of-band change event writing a wrong-typed raw value. -/
def rawTaskChange : List (String × JSValue) := [("currentTask", JSValue.vNum 123)]

/-- An out-of-band change event carrying an untrimmed task string. -/
def rawUntrimmedChange : List (String × JSValue) := [("currentTask", JSValue.vStr " hi ")]

/-- A clean raw stored record whose sanitized image round-trips. -/
def cleanStored : RawState :=
  { currentTask := some (JSValue.vStr "hi")
    distractingSites := some (JSValue.vArr [JSValue.vStr "a.com"])
    deepWorkBlockedSites := some (JSValue.vArr []) }

/-- A current state with normalized site lists. -/
def invariantWitnessCurrent : State :=
  { getDefaultState with distractingSites := ["a.com", "b.com"], deepWorkBlockedSites := [] }

/-- An update that contradicts the invariants on purpose. -/
def invariantWitnessUpdate : RawState :=
  { isEnabled := some (JSValue.vBool false)
    isInFlow := some (JSValue.vBool true)
    reminderStartTime := some (JSValue.vNum 5) }

/-- A payload mixing an allowlisted key, an internal timer key and an
unknown key. -/
def mixedPayload : List (String × JSValue) :=
  [("isEnabled", JSValue.vBool false), ("reminderStartTime", JSValue.vNum 5),
   ("evil", JSValue.vStr "x")]

/-! ### The claims -/

/-- C1 (corrected): for every full state whose two site-list fields are
already normalized (no duplicates, all lowercase, sorted) and every
partial update object with arbitrary JSON-like field values, the state
returned by computeNextState satisfies all the state invariants: an
active flow has a task, a disabled extension has flow, task, reminder
flag and all timer fields zeroed, an inactive flow has all three timer
fields null, and the two site lists are duplicate-free, lowercase and
sorted.  (The claim as frozen quantifies over every full state; it fails
on states whose site lists came from the unsorted built-in default lists,
see the counterexample.) -/
theorem c1_invariant_closure (current : State) (updates : RawState)
    (h1 : NormalizedSiteList current.distractingSites)
    (h2 : NormalizedSiteList current.deepWorkBlockedSites) :
    StateInvariant (computeNextState current updates) :=
  ⟨computeNextState_flowInvariant current updates,
   computeNextState_dist_normalized current updates h1,
   computeNextState_deep_normalized current updates h2⟩

/-- C1 counterexample: the default state is a full state, yet applying
the empty update to it yields a state violating the sorted-site-list
invariant (the built-in default lists are not sorted and pass through the
fallback unsorted). -/
theorem c1_counterexample :
    ¬ StateInvariant (computeNextState getDefaultState emptyRawState) := by decide

/-- C1 witness: a concrete normalized state and an
invariant-contradicting update. -/
theorem c1_witness :
    NormalizedSiteList invariantWitnessCurrent.distractingSites ∧
    NormalizedSiteList invariantWitnessCurrent.deepWorkBlockedSites ∧
    StateInvariant (computeNextState invariantWitnessCurrent invariantWitnessUpdate) :=
  ⟨by decide, by decide,
   c1_invariant_closure invariantWitnessCurrent invariantWitnessUpdate (by decide) (by decide)⟩

/-- C2 (corrected): when the persistent-store write of a queued
updateState call throws, the failure is caught and the call resolves
false, but the in-memory snapshot has already been advanced to the fully
computed next state (never a partially merged one) while the store still
holds the previous values: the snapshot is one update ahead of the store,
not consistent with it. -/
theorem c2_failed_persist (sys : SysState) (u : RawState)
    (h : (diffState sys.mem (computeNextState sys.mem u)).keys ≠ []) :
    runUpdate true sys u =
      ({ mem := computeNextState sys.mem u, store := sys.store,
         broadcasts := sys.broadcasts }, false) := by
  simp only [runUpdate]
  rw [if_neg h]
  simp

/-- C2 counterexample: a failing persistence leaves the call resolved
false and the store untouched, but the in-memory snapshot has moved, so
it is not consistent with the last successfully persisted value. -/
theorem c2_counterexample :
    (runUpdate true defaultSys taskUpdate).2 = false ∧
    (runUpdate true defaultSys taskUpdate).1.store = defaultSys.store ∧
    (runUpdate true defaultSys taskUpdate).1.mem ≠ defaultSys.mem :=
  ⟨rfl, rfl, by decide⟩

/-- C2 witness: the failed-persistence equation at a concrete system and
payload. -/
theorem c2_witness :
    (diffState defaultSys.mem (computeNextState defaultSys.mem taskUpdate)).keys ≠ [] ∧
    runUpdate true defaultSys taskUpdate =
      ({ mem := computeNextState defaultSys.mem taskUpdate, store := defaultSys.store,
         broadcasts := defaultSys.broadcasts }, false) :=
  ⟨by decide, c2_failed_persist defaultSys taskUpdate (by decide)⟩

/-- C3 (confirmed): updates submitted to the serialized pipeline are
applied in submission order: the final in-memory snapshot is the
left-to-right fold of computeNextState over the submitted payloads
(whatever the persistence outcomes), and for two back-to-back calls the
second computeNextState receives the next state of the first as its
current state. -/
theorem c3_submission_order :
    (∀ (sys : SysState) (items : List (RawState × Bool)),
      (runQueue sys items).mem = (items.map Prod.fst).foldl computeNextState sys.mem) ∧
    (∀ (sys : SysState) (u1 u2 : RawState) (f1 f2 : Bool),
      (runQueue sys [(u1, f1), (u2, f2)]).mem =
        computeNextState (computeNextState sys.mem u1) u2) := by
  refine ⟨fun sys items => runQueue_mem items sys, fun sys u1 u2 f1 f2 => ?_⟩
  rw [runQueue_mem]
  rfl

/-- C4 (corrected): after an out-of-band raw store write observed by the
reconciliation listener (post-hydration, schema keys present), the
in-memory snapshot equals computeNextState of the raw changes over the
prior state; when the derived delta is non-empty the broadcast carries
exactly that delta and the store holds the sanitized values on every
delta key; but when the sanitized merge changes nothing, no corrective
write happens and the store keeps the raw unsanitized values, so the
three do not all agree in general (see the counterexample). -/
theorem c4_reconcile (sys : SysState) (changes : List (String × JSValue))
    (hne : filterSchemaEntries changes ≠ []) :
    (reconcileStep (outOfBandWrite sys changes) changes).mem =
      computeNextState sys.mem (buildRawUpdates (filterSchemaEntries changes)) ∧
    ((diffState sys.mem
        (computeNextState sys.mem (buildRawUpdates (filterSchemaEntries changes)))).keys ≠
          [] →
      (reconcileStep (outOfBandWrite sys changes) changes).broadcasts =
        sys.broadcasts ++
          [diffState sys.mem
            (computeNextState sys.mem (buildRawUpdates (filterSchemaEntries changes)))] ∧
      storeRecordsDelta
        (diffState sys.mem
          (computeNextState sys.mem (buildRawUpdates (filterSchemaEntries changes))))
        (reconcileStep (outOfBandWrite sys changes) changes).store) ∧
    ((diffState sys.mem
        (computeNextState sys.mem (buildRawUpdates (filterSchemaEntries changes)))).keys =
          [] →
      (reconcileStep (outOfBandWrite sys changes) changes).store =
        applyRawWrite sys.store changes) := by
  have hs := reconcileStep_spec (outOfBandWrite sys changes) changes hne
  exact ⟨hs.1, fun hk => hs.2.2 hk, fun hk => congrArg SysState.store (hs.2.1 hk)⟩

/-- C4 counterexample: an out-of-band write of a wrong-typed task value
reconciles to an unchanged snapshot, yet the store keeps the raw number
while the sanitized merge stores a string: store content and sanitized
merge result disagree. -/
theorem c4_counterexample :
    (reconcileStep (outOfBandWrite defaultSys rawTaskChange) rawTaskChange).mem
        = defaultSys.mem ∧
    (reconcileStep (outOfBandWrite defaultSys rawTaskChange) rawTaskChange).store.currentTask
        = some (JSValue.vNum 123) ∧
    (stateToRaw (reconcileStep (outOfBandWrite defaultSys rawTaskChange)
        rawTaskChange).mem).currentTask = some (JSValue.vStr "") ∧
    JSValue.vNum 123 ≠ JSValue.vStr "" :=
  ⟨by decide, rfl, rfl, fun h => JSValue.noConfusion h⟩

/-- C4 witness: the reconciliation equations at a concrete out-of-band
write with a non-empty schema intersection. -/
theorem c4_witness :
    filterSchemaEntries rawUntrimmedChange ≠ [] ∧
    ((reconcileStep (outOfBandWrite defaultSys rawUntrimmedChange) rawUntrimmedChange).mem =
      computeNextState defaultSys.mem
        (buildRawUpdates (filterSchemaEntries rawUntrimmedChange)) ∧
    ((diffState defaultSys.mem
        (computeNextState defaultSys.mem
          (buildRawUpdates (filterSchemaEntries rawUntrimmedChange)))).keys ≠ [] →
      (reconcileStep (outOfBandWrite defaultSys rawUntrimmedChange)
          rawUntrimmedChange).broadcasts =
        defaultSys.broadcasts ++
          [diffState defaultSys.mem
            (computeNextState defaultSys.mem
              (buildRawUpdates (filterSchemaEntries rawUntrimmedChange)))] ∧
      storeRecordsDelta
        (diffState defaultSys.mem
          (computeNextState defaultSys.mem
            (buildRawUpdates (filterSchemaEntries rawUntrimmedChange))))
        (reconcileStep (outOfBandWrite defaultSys rawUntrimmedChange)
          rawUntrimmedChange).store) ∧
    ((diffState defaultSys.mem
        (computeNextState defaultSys.mem
          (buildRawUpdates (filterSchemaEntries rawUntrimmedChange)))).keys = [] →
      (reconcileStep (outOfBandWrite defaultSys rawUntrimmedChange)
          rawUntrimmedChange).store =
        applyRawWrite defaultSys.store rawUntrimmedChange)) :=
  ⟨List.cons_ne_nil _ _,
   c4_reconcile defaultSys rawUntrimmedChange (List.cons_ne_nil _ _)⟩

/-- C5 (corrected): sanitizeStoredState is idempotent on every raw input
whose first sanitization yields a task with no leading or trailing
whitespace and site lists that are sorted with no entry still beginning
in "www." — but not on arbitrary raw input: the unsorted built-in
default lists fall through the fallback unsorted and get sorted only by
the second pass (counterexample at input null), truncation can expose
trailing whitespace, and a hostname like www.www.com keeps a www prefix
the second pass strips further. -/
theorem c5_sanitize_idem (x : Option RawState)
    (htask : jsTrim (sanitizeStoredState x).currentTask = (sanitizeStoredState x).currentTask)
    (hsort1 : List.Sorted StrOrder (sanitizeStoredState x).distractingSites)
    (hwww1 : ∀ h ∈ (sanitizeStoredState x).distractingSites, strStarts "www." h = false)
    (hsort2 : List.Sorted StrOrder (sanitizeStoredState x).deepWorkBlockedSites)
    (hwww2 : ∀ h ∈ (sanitizeStoredState x).deepWorkBlockedSites, strStarts "www." h = false) :
    sanitizeStoredState (some (stateToRaw (sanitizeStoredState x))) = sanitizeStoredState x := by
  obtain ⟨hnd1, hval1, hlen1⟩ := sanitize_dist_facts x
  obtain ⟨hnd2, hval2, hlen2⟩ := sanitize_deep_facts x
  exact sanitize_of_clean (sanitize_flowTight x) htask (sanitize_task_len x)
    hnd1 hval1 hlen1 hsort1 hwww1 hnd2 hval2 hlen2 hsort2 hwww2 (sanitize_interval_ok x)

/-- C5 counterexample: sanitize of sanitize differs from sanitize at the
null input already, because the unsorted default site lists pass through
the first call unsorted and the second call sorts them. -/
theorem c5_counterexample :
    sanitizeStoredState (some (stateToRaw (sanitizeStoredState none))) ≠
      sanitizeStoredState none := by decide

/-- C5 witness: a clean stored record on which the idempotence equation
holds. -/
theorem c5_witness :
    jsTrim (sanitizeStoredState (some cleanStored)).currentTask =
        (sanitizeStoredState (some cleanStored)).currentTask ∧
    List.Sorted StrOrder (sanitizeStoredState (some cleanStored)).distractingSites ∧
    (∀ h ∈ (sanitizeStoredState (some cleanStored)).distractingSites,
      strStarts "www." h = false) ∧
    List.Sorted StrOrder (sanitizeStoredState (some cleanStored)).deepWorkBlockedSites ∧
    (∀ h ∈ (sanitizeStoredState (some cleanStored)).deepWorkBlockedSites,
      strStarts "www." h = false) ∧
    sanitizeStoredState (some (stateToRaw (sanitizeStoredState (some cleanStored)))) =
      sanitizeStoredState (some cleanStored) :=
  ⟨by decide, by decide, by decide, by decide, by decide,
   c5_sanitize_idem (some cleanStored) (by decide) (by decide) (by decide) (by decide)
     (by decide)⟩

/-- C6 (confirmed): a site list accepted through normalizeDomainList (the
single acceptance path of sanitizeStoredState and computeNextState) is
always duplicate-free, lowercase, sorted and bounded by 200 entries; and
the scenario list WWW.Foo.com, foo.com, bar.com normalizes to exactly
bar.com, foo.com under computeNextState from any current state and under
sanitizeStoredState. -/
theorem c6_sitelist_normalization :
    (∀ (xs : List JSValue) (fb : List String),
      NormalizedSiteList (normalizeDomainList (JSValue.vArr xs) fb MAX_SITE_LIST_ITEMS) ∧
      (normalizeDomainList (JSValue.vArr xs) fb MAX_SITE_LIST_ITEMS).length ≤ 200) ∧
    (∀ current : State,
      (computeNextState current sitesScenarioUpdate).distractingSites =
        ["bar.com", "foo.com"]) ∧
    (sanitizeStoredState (some sitesScenarioUpdate)).distractingSites =
      ["bar.com", "foo.com"] := by
  refine ⟨fun xs fb =>
      ⟨normalizeDomainList_arr_normalized xs fb, normalizeDomainList_arr_length xs fb⟩,
    fun current => ?_, by decide⟩
  rw [computeNextState_distractingSites]
  exact (by decide :
    sortStrings (collectHostnames MAX_SITE_LIST_ITEMS
      [JSValue.vStr "WWW.Foo.com", JSValue.vStr "foo.com", JSValue.vStr "bar.com"] []) =
      ["bar.com", "foo.com"])

/-- C7 (corrected): disabling from the flow state of the scenario zeroes
isInFlow, currentTask and the three reminder fields, and the diff
contains exactly those five keys together with isEnabled itself (six
keys, since the isEnabled value changed too — the frozen claim counts
only five). -/
theorem c7_disable_scenario :
    (computeNextState disableScenarioPrior disableScenarioUpdate).isInFlow = false ∧
    (computeNextState disableScenarioPrior disableScenarioUpdate).currentTask = "" ∧
    (computeNextState disableScenarioPrior disableScenarioUpdate).reminderStartTime = none ∧
    (computeNextState disableScenarioPrior disableScenarioUpdate).reminderInterval = none ∧
    (computeNextState disableScenarioPrior disableScenarioUpdate).reminderExpectedEndTime
        = none ∧
    (diffState disableScenarioPrior
        (computeNextState disableScenarioPrior disableScenarioUpdate)).keys =
      ["isEnabled", "currentTask", "isInFlow", "reminderStartTime", "reminderInterval",
       "reminderExpectedEndTime"] := by decide

/-- C7 counterexample: the diff of the scenario contains isEnabled, which
is not among the five keys the claim says the diff consists of, so the
diff does not contain exactly those five keys. -/
theorem c7_counterexample :
    "isEnabled" ∈ (diffState disableScenarioPrior
        (computeNextState disableScenarioPrior disableScenarioUpdate)).keys ∧
    "isEnabled" ∉ ["currentTask", "isInFlow", "reminderStartTime", "reminderInterval",
      "reminderExpectedEndTime"] := by decide

/-- C8 (confirmed): when the storage read of hydration fails, the run
still resolves (the model function is total), reaches READY, leaves the
in-memory state at sanitizeStoredState of null (the full defaults),
touches no store key, and a subsequent getState returns that state. -/
theorem c8_hydration_failure (store0 : RawState) :
    runHydration ReadOutcome.failed store0 =
      { resolvedState := sanitizeStoredState none, mem := sanitizeStoredState none,
        store := store0, hasInitialized := true } ∧
    getState { mem := (runHydration ReadOutcome.failed store0).mem,
               store := (runHydration ReadOutcome.failed store0).store,
               broadcasts := [] } = sanitizeStoredState none :=
  ⟨rfl, rfl⟩

/-- C9 (confirmed, allowlist modelled from the spec): an updateState
request from an untrusted sender is rejected with success false and the
system state unchanged; for a trusted sender the handler depends only on
the allowlist-filtered payload, every surviving entry has an allowlisted
key, and the raw update object built from the filtered payload never
carries the internal timer bookkeeping fields. -/
theorem c9_trust_boundary :
    (∀ (payload : List (String × JSValue)) (setFails : Bool) (sys : SysState),
      handleUpdateStateMessage false payload setFails sys =
        (sys, { success := false, error := some "Forbidden" })) ∧
    (∀ (payload : List (String × JSValue)) (setFails : Bool) (sys : SysState),
      handleUpdateStateMessage true payload setFails sys =
        handleUpdateStateMessage true (filterPayloadKeys payload UI_ALLOWED_UPDATE_KEYS)
          setFails sys) ∧
    (∀ payload : List (String × JSValue),
      ∀ kv ∈ filterPayloadKeys payload UI_ALLOWED_UPDATE_KEYS,
        kv.1 ∈ UI_ALLOWED_UPDATE_KEYS) ∧
    (∀ payload : List (String × JSValue),
      (buildRawUpdates (filterPayloadKeys payload UI_ALLOWED_UPDATE_KEYS)).reminderStartTime
          = none ∧
      (buildRawUpdates (filterPayloadKeys payload UI_ALLOWED_UPDATE_KEYS)).reminderInterval
          = none ∧
      (buildRawUpdates
          (filterPayloadKeys payload UI_ALLOWED_UPDATE_KEYS)).reminderExpectedEndTime
          = none) := by
  refine ⟨fun payload setFails sys => rfl, fun payload setFails sys => ?_,
    fun payload => filterPayloadKeys_mem,
    fun payload => buildRawUpdates_timers _ filterPayloadKeys_mem⟩
  simp only [handleUpdateStateMessage, filterPayloadKeys_idem]

/-- C9 witness: the allowlist guarantee applied to a concrete mixed
payload. -/
theorem c9_witness :
    ("isEnabled", JSValue.vBool false) ∈
        filterPayloadKeys mixedPayload UI_ALLOWED_UPDATE_KEYS ∧
    ("isEnabled", JSValue.vBool false).1 ∈ UI_ALLOWED_UPDATE_KEYS :=
  ⟨List.mem_cons_self _ _,
   c9_trust_boundary.2.2.1 mixedPayload ("isEnabled", JSValue.vBool false)
     (List.mem_cons_self _ _)⟩

/-- C10 (confirmed): the invariant-enforcement pass returns isEnabled,
blockDistractions, distractingSites and deepWorkBlockedSites unchanged
for every input state, so it changes at most the flow, task, reminder
flag and timer fields and can never silently override a change to the
enable flags or the site lists. -/
theorem c10_enforce_frame (s : State) :
    (enforceStateInvariants s).isEnabled = s.isEnabled ∧
    (enforceStateInvariants s).blockDistractions = s.blockDistractions ∧
    (enforceStateInvariants s).distractingSites = s.distractingSites ∧
    (enforceStateInvariants s).deepWorkBlockedSites = s.deepWorkBlockedSites :=
  enforce_frame s

end Maizone